import Mathlib

/-!
Verification of the recipe-upload application's text pipeline.

The Python sources are embedded shallowly: strings are `List Char`, byte
strings are `List Nat`, the regex operations of the source are translated
into explicit scanning functions, and the external HTTP/GitHub/OpenAI calls
are represented by explicit request values or oracle parameters so that the
purely local control flow can be reasoned about.
-/

/-- The double-quote character, written via its code point. -/
def quoteChar : Char := Char.ofNat 34

/-- Whitespace as recognized by Python's `str.strip()` and by the `\s` class
of the `re` module on the ASCII range: space, tab, newline, carriage
return, vertical tab, form feed. -/
def isPySpace (c : Char) : Bool :=
  c = ' ' || c = '\t' || c = '\n' || c = '\r' || c = '\x0b' || c = '\x0c'

/-- Python `text.strip()`: drop whitespace from both ends. -/
def pyStrip (s : List Char) : List Char :=
  ((s.dropWhile isPySpace).reverse.dropWhile isPySpace).reverse

/-- `re.sub(r'^```(?:markdown)?\n', "", text)` from `strip_markdown_fences`:
the `^` anchor (no MULTILINE flag) allows a match only at position 0, so at
most one replacement happens; the optional group is tried greedily, so a
leading "```markdown\n" is removed in preference to a leading "```\n". -/
def stripLeadingFence (s : List Char) : List Char :=
  if ("```markdown\n".data).isPrefixOf s then s.drop 12
  else if ("```\n".data).isPrefixOf s then s.drop 4
  else s

/-- `re.sub(r'\n```$', "", text)` from `strip_markdown_fences`: without
MULTILINE, `$` matches at the end of the string or just before a final
newline, so the only possible match of the four-character pattern is the
suffix "\n```" of the whole string or the "\n```" occupying the four
characters before a final "\n"; the two cases exclude each other (the last
character cannot be both a backtick and a newline), so at most one
replacement happens. -/
def stripTrailingFence (s : List Char) : List Char :=
  if ("\n```\n".data).isSuffixOf s then s.take (s.length - 5) ++ "\n".data
  else if ("\n```".data).isSuffixOf s then s.take (s.length - 4)
  else s

/-- `strip_markdown_fences` from `recipe_app/utils.py`: remove an optional
leading fence line, an optional trailing fence, then `strip()`. -/
def strip_markdown_fences (s : List Char) : List Char :=
  pyStrip (stripTrailingFence (stripLeadingFence s))

/-- Try to match the regex `<key>\s*=\s*"([^"]+)"` at the very start of `l`
and return the text captured by the group. The quantifiers need no
backtracking here: `\s*` takes a maximal whitespace run (the literal that
follows is never whitespace) and `[^"]+` takes a maximal run of non-quote
characters, which must be nonempty and followed by a closing quote. -/
def matchValueAt (key : List Char) (l : List Char) : Option (List Char) :=
  if key.isPrefixOf l then
    match (l.drop key.length).dropWhile isPySpace with
    | '=' :: r2 =>
      match r2.dropWhile isPySpace with
      | c :: r4 =>
        if c = quoteChar then
          match r4.dropWhile (fun d => d != quoteChar) with
          | _ :: _ =>
            if (r4.takeWhile (fun d => d != quoteChar)).isEmpty then none
            else some (r4.takeWhile (fun d => d != quoteChar))
          | [] => none
        else none
      | [] => none
    | _ => none
  else none

/-- `re.search` for the pattern of `matchValueAt`: scan left to right and
return the group of the leftmost match, if any. -/
def findValue (key : List Char) : List Char → Option (List Char)
  | [] => none
  | c :: cs =>
    match matchValueAt key (c :: cs) with
    | some v => some v
    | none => findValue key cs

/-- `extract_technical_title` from `recipe_app/utils.py` at its default
`default` argument: search `TECHNICAL_TITLE_PATTERN` (the pattern
`technical_title\s*=\s*"([^"]+)"` from `recipe_app/prompts.py`) and fall
back to "untitled-recipe" when there is no match. -/
def extract_technical_title (recipe_text : List Char) : List Char :=
  (findValue "technical_title".data recipe_text).getD "untitled-recipe".data

/-- `potential_title` as computed by `generate_recipe_image` in
`recipe_app/services/image_generation.py`: search `title\s*=\s*"([^"]+)"`
and fall back to "Food Recipe". -/
def generate_recipe_image_title (recipe_text : List Char) : List Char :=
  (findValue "title".data recipe_text).getD "Food Recipe".data

/-- `potential_description` as computed by `generate_recipe_image`: search
`description\s*=\s*"([^"]+)"` and fall back to "Delicious food". -/
def generate_recipe_image_description (recipe_text : List Char) : List Char :=
  (findValue "description".data recipe_text).getD "Delicious food".data

/-- Whether `pat` occurs as a contiguous run inside `s`. -/
def containsSeq (pat : List Char) : List Char → Bool
  | [] => pat.isPrefixOf ([] : List Char)
  | c :: cs => pat.isPrefixOf (c :: cs) || containsSeq pat cs

/-- Try to match `(date\s*=\s*)"[^"]*"` (the pattern used by
`call_openai_for_recipe` in `recipe_app/services/recipe_conversion.py`) at
the very start of `l`. On success return the text of capture group 1
(`date\s*=\s*`) together with the input remaining after the closing quote.
`[^"]*` may be empty here, unlike in `matchValueAt`. -/
def matchDateAt (l : List Char) : Option (List Char × List Char) :=
  if ("date".data).isPrefixOf l then
    match (l.drop 4).dropWhile isPySpace with
    | '=' :: r2 =>
      match r2.dropWhile isPySpace with
      | c :: r4 =>
        if c = quoteChar then
          match r4.dropWhile (fun d => d != quoteChar) with
          | _ :: r6 =>
            some ("date".data ++ (l.drop 4).takeWhile isPySpace
              ++ '=' :: r2.takeWhile isPySpace, r6)
          | [] => none
        else none
      | [] => none
    | _ => none
  else none

/-- One left-to-right pass of `re.sub`: at each position try `matchDateAt`;
on a match emit group 1 followed by the quoted `today` value and continue
after the match, otherwise keep the character and move one position right.
The fuel argument only serves structural recursion; `substDate` passes the
input length, which is always sufficient because every match consumes at
least one character. -/
def substDateGo (today : List Char) : Nat → List Char → List Char
  | _, [] => []
  | 0, l => l
  | fuel + 1, c :: cs =>
    match matchDateAt (c :: cs) with
    | some (g, r) => g ++ quoteChar :: (today ++ quoteChar :: substDateGo today fuel r)
    | none => c :: substDateGo today fuel cs

/-- `re.sub(r'(date\s*=\s*)"[^"]*"', f'\\1"{today_date}"', text)` from
`call_openai_for_recipe`, with the current date passed in as `today`. -/
def substDate (today : List Char) (s : List Char) : List Char :=
  substDateGo today s.length s

/-- Whether the pattern `date\s*=\s*"[^"]*"` matches anywhere in `s`. -/
def hasDateMatch : List Char → Bool
  | [] => false
  | c :: cs => (matchDateAt (c :: cs)).isSome || hasDateMatch cs

/-- `RECIPE_PROMPT_TEMPLATE` from `recipe_app/prompts.py`, transcribed
verbatim but split into consecutive chunks (`recipePromptChunk1` ..) whose
ordered concatenation is exactly the Python literal (which opens with a
backslash-continued triple quote, so there is no leading newline, and ends
with a newline); the split keeps each piece small enough for kernel
evaluation and isolates the two replacement fields. -/
def recipePromptChunk1 : String :=
  "You are transforming food recipes into a specific markdown format. You will try to make the instructions as concise as possible. In the method, make sure to include the amounts required in each step in bold along with the ingredient. This is the format I want to end up with, commented for your ease. Put any times in the frontmatter, in these 4 categories: prepTime, cookTime, chillTime, restTime. Make sure to include all the fields specified. Remove any \"sales\" pitch from the title, such as quick, easy, tasty etc. Give some suggested tags for th"

def recipePromptChunk2 : String :=
  "is recipe in the tags array in the frontmatter:\n\n+++\nauthor = \"Eivind Halmøy Wolden\"\ntitle = \"Title Goes Here\"\ntechnical_title = \"title-goes-here\"\ndate = \"Insert todays date here in YYYY-MM-DD format\"\ndescription = \"One sentence description of the recipe\"\ntags = [\n\n]\ncategories = [\n\n]\nimage = \"image.jpg\"\nprepTime = \"How long does the preparation of the ingredients take\"\ncookTime = \"How long is the cooking time\"\nrecipeYield = \"How many portions does this recipe yield\"\ningredients = [ Ingredients listed alphabetically\n]\n+++\n\n## Title\n### Ingredie"

def recipePromptChunk3 : String :=
  "nts for title\nIngredient | Quantity | How\n---|---|---\nIngredients listed by time they are used. Here are some examples:\nWild mushrooms      | 300 g        | in chunks\nChampignon          | 200 g        | in chunks\nOnion               | 1            | finley chopped\nButter              | 2 tbsp       |\nFresh thyme         | 1 sprig      | finley chopped\nCream (12%)         | 1            |\nSoy Sauce           | to taste     |\n\n### Method for title\n#### Step 1\nList each step. Making sure to bold any ingredients and amounts in the step. Some examp"

def recipePromptChunk4 : String :=
  "les:\n\n#### Step 2\nIn a skillet, melt **2 tbsp butter** at high heat until lightly browned.\n\n#### Step 3\nAdd **500 g mushrooms** to skillet and cook at high heat for 3 mins. Add finely chopped **onion**. Cook until golden.\n\n#### Step 4\nAdd finely chopped **sprig of thyme** and **300 ml cream** and reduce heat to medium.\n\n#### Step 5\nLet boil for a few minutes until thickened. Add **soy sauce**, **salt**, and **pepper** to taste.\n\n## Notes:\nAny additional notes for the recipe, such as frigde life, reheating instructions etc.\n\n----------\nRemember:"

def recipePromptChunk5 : String :=
  "\n- ALWAYS alphabetize the ingredients in the front matter, don't include amounts\n- ALWAYS put ingredients in the order they are used in the ingredients list\n- ALWAYS include the amount of each ingredient used throughout the recipe, make it bold for clarity.\n- Inches should be converted to cm (rounded)\n- Farenheit should be converted to Celcius\n- oz should be converted to grams (rounded to 10 grams)\n- Do not convert amounts in tbsp, tsp, cups.\n- lbs should be converted to grams (rounded to 10 grams)\n- Be concise\n- Remove sales pitchy things\n- Re"

def recipePromptChunk6 : String :=
  "spond in English\n- Remove kosher and just leave salt from any mention of kosher salt.\n- Give suggested tags\n- The author should always be Eivind Halmøy Wolden\n- The technical title should be a shortened version of the title, with no spaces and all lowercase\n\nAdditional user instructions: "

/-- The part of `RECIPE_PROMPT_TEMPLATE` strictly before the
`user_instructions` placeholder. -/
def recipePromptPre : String :=
  recipePromptChunk1 ++ (recipePromptChunk2 ++ (recipePromptChunk3 ++
    (recipePromptChunk4 ++ (recipePromptChunk5 ++ recipePromptChunk6))))

/-- The template: the literal text before the first placeholder (the chunks
forming `recipePromptPre`), then the `user_instructions` field, the literal
between the fields, the `recipe_text` field, and a final newline. -/
def RECIPE_PROMPT_TEMPLATE : String :=
  recipePromptChunk1 ++ (recipePromptChunk2 ++ (recipePromptChunk3 ++
    (recipePromptChunk4 ++ (recipePromptChunk5 ++ (recipePromptChunk6 ++
      "{user_instructions}\n\nRecipe Text:\n{recipe_text}\n")))))

/-- Python `str.format` restricted to what the repository's templates use:
named replacement fields with no conversion or format spec, doubled-brace
escapes, and failure (`none`) for an unmatched brace, a lone closing brace,
or an unknown field name. The fuel argument only serves structural
recursion; `pyFormat` passes the template length, which always suffices. -/
def pyFormatGo (subs : List (List Char × List Char)) : Nat → List Char → Option (List Char)
  | _, [] => some []
  | 0, _ => none
  | fuel + 1, c :: rest =>
    if c = '{' then
      if rest.head? = some '{' then
        (pyFormatGo subs fuel rest.tail).map (fun t => '{' :: t)
      else
        match rest.dropWhile (fun d => d != '}') with
        | _ :: r2 =>
          match subs.find? (fun p => p.1 == rest.takeWhile (fun d => d != '}')) with
          | some p => (pyFormatGo subs fuel r2).map (fun t => p.2 ++ t)
          | none => none
        | [] => none
    else if c = '}' then
      if rest.head? = some '}' then
        (pyFormatGo subs fuel rest.tail).map (fun t => '}' :: t)
      else none
    else (pyFormatGo subs fuel rest).map (fun t => c :: t)

/-- `template.format(**subs)` for the restricted field syntax above. -/
def pyFormat (subs : List (List Char × List Char)) (template : List Char) : Option (List Char) :=
  pyFormatGo subs template.length template

/-- The prompt constructed by `convert_recipe` in
`recipe_app/services/recipe_conversion.py`:
`RECIPE_PROMPT_TEMPLATE.format(recipe_text=..., user_instructions=user_instructions or "")`.
The source lets `user_instructions` be `None`; Python's `or ""` maps both
`None` and the empty string to the empty string. -/
def convert_recipe_prompt (recipe_text : List Char)
    (user_instructions : Option (List Char)) : Option (List Char) :=
  pyFormat
    [("recipe_text".data, recipe_text),
     ("user_instructions".data, user_instructions.getD [])]
    RECIPE_PROMPT_TEMPLATE.data

/-- An HTTP response as seen by `requests.get`: the final status code and
the body text. -/
structure HttpResponse where
  status : Nat
  body : List Char

/-- `response.raise_for_status()` from the requests library: it raises
exactly for status codes in [400, 600) (client and server errors);
informational, success and redirect statuses do not raise. -/
def raise_for_status (r : HttpResponse) : Except Nat Unit :=
  if 400 ≤ r.status ∧ r.status < 600 then Except.error r.status else Except.ok ()

/-- The fixed instruction text of `extract_text_from_link`, before the
caller's `extra_instructions` are appended by the f-string. -/
def linkExtractionInstructions : String :=
  "You are an AI assistant that extracts the food recipe from this raw HTML.\nExtract all recipe details including title, ingredients, instructions, and cooking times.\n"

/-- `extract_text_from_link` from `recipe_app/services/text_extraction.py`,
over an already-fetched response and a pure oracle `model` standing for the
OpenAI endpoint (mapping request input and instructions to the response
text): check the status, send the entire body together with the
instructions, and return the model output fence-stripped and stripped. -/
def extract_text_from_link (r : HttpResponse)
    (model : List Char → List Char → List Char)
    (extra_instructions : List Char) : Except Nat (List Char) :=
  match raise_for_status r with
  | Except.error e => Except.error e
  | Except.ok _ =>
    Except.ok (pyStrip (strip_markdown_fences
      (model r.body (linkExtractionInstructions.data ++ extra_instructions))))

/-- The request `get_github_repo` issues after validation: construct a
client with the bearer token and fetch the named repository. Returning this
value models reaching `Github(token).get_repo(repo_name)`; the error branch
returns before this value is built, i.e. before any network call. -/
structure GithubRepoRequest where
  token : String
  repoName : String

/-- Python truthiness of `os.getenv`'s result: `None` and the empty string
are falsy. -/
def envFalsy : Option String → Bool
  | none => true
  | some s => s.isEmpty

/-- `get_github_repo` from `recipe_app/config.py` over an explicit
environment: collect the names of falsy variables in the dict's insertion
order and fail with the message naming them; otherwise return the repo
request. -/
def get_github_repo (env : String → Option String) : Except String GithubRepoRequest :=
  let token := env "GITHUB_ACCESS_TOKEN"
  let repo_name := env "GITHUB_REPO_NAME"
  let missing :=
    (if envFalsy token then ["GITHUB_ACCESS_TOKEN"] else []) ++
    (if envFalsy repo_name then ["GITHUB_REPO_NAME"] else [])
  if missing.isEmpty then
    Except.ok { token := token.getD "", repoName := repo_name.getD "" }
  else
    Except.error ("Missing required environment variables for GitHub integration: "
      ++ String.intercalate ", " missing)

/-- One call against the source-control hosting API, as issued by
`create_github_pr`. -/
inductive GitHubCall where
  | getBranch (name : String)
  | createRef (ref : String) (sha : String)
  | createFile (path : String) (message : String) (content : List Nat) (branch : String)
  | createPull (title : String) (body : String) (head : String) (base : String)

/-- The data `create_github_pr` reads back from the hosting API: the head
commit sha of the branch it branches from, and the html url of the created
pull request. -/
structure MockRepo where
  headSha : String
  prHtmlUrl : String

/-- `final_recipe.encode("utf-8")` as a byte list. -/
def utf8Bytes (s : String) : List Nat :=
  s.toUTF8.toList.map (fun b => b.toNat)

/-- `RECIPES_FOLDER` from `recipe_app/config.py` when the `RECIPES_FOLDER`
environment variable is unset: `os.getenv("RECIPES_FOLDER", "content/post")`. -/
def defaultRecipesFolder : String := "content/post"

/-- `create_github_pr` from `recipe_app/services/github_pr.py`: the ordered
trace of hosting-API calls it issues together with the value it returns
(`pr.html_url`). -/
def create_github_pr (recipesFolder : String) (repo : MockRepo)
    (final_recipe : String) (compressed_image_bytes : List Nat)
    (technical_title : String) : List GitHubCall × String :=
  let new_branch_name := "recipe/" ++ technical_title
  let file_name := recipesFolder ++ "/" ++ technical_title ++ "/index.md"
  let image_file_path := recipesFolder ++ "/" ++ technical_title ++ "/image.jpg"
  ([GitHubCall.getBranch "master",
    GitHubCall.createRef ("refs/heads/" ++ new_branch_name) repo.headSha,
    GitHubCall.createFile file_name ("Add new recipe " ++ technical_title)
      (utf8Bytes final_recipe) new_branch_name,
    GitHubCall.createFile image_file_path ("Add image for recipe " ++ technical_title)
      compressed_image_bytes new_branch_name,
    GitHubCall.createPull ("New Recipe: " ++ technical_title)
      ("Auto-generated recipe PR for " ++ technical_title ++ ". Please review.")
      new_branch_name "master"],
   repo.prHtmlUrl)

/-- Discriminator for branch-creation calls. -/
def isCreateRefCall : GitHubCall → Bool
  | GitHubCall.createRef _ _ => true
  | _ => false

/-- Discriminator for file-commit calls. -/
def isCreateFileCall : GitHubCall → Bool
  | GitHubCall.createFile _ _ _ _ => true
  | _ => false

/-- Discriminator for pull-request-creation calls. -/
def isCreatePullCall : GitHubCall → Bool
  | GitHubCall.createPull _ _ _ _ => true
  | _ => false

/-- Streamlit session state as initialized by `main` in
`src/streamlit_app.py`: fixed keys with their defaults (`None` for the image
slot, empty strings otherwise). -/
structure SessionState where
  final_recipe : List Char
  compressed_image_bytes : Option (List Nat)
  technical_title : List Char
  extracted_text : List Char

/-- The defaults `main` installs on first run. -/
def initialSessionState : SessionState :=
  { final_recipe := [], compressed_image_bytes := none,
    technical_title := [], extracted_text := [] }

/-- Python truthiness of the image slot: `None` and an empty byte string
are falsy. -/
def imageFalsy : Option (List Nat) → Bool
  | none => true
  | some b => b.isEmpty

/-- What the `Create Pull Request` click in `main` does: either show an
error, or invoke the publishing client. -/
inductive PublishOutcome where
  | errorNoImage
  | publishCalled (final_recipe : List Char) (image : List Nat) (technical_title : List Char)

/-- The publish branch of `main` (src/streamlit_app.py): when the image
slot is falsy it shows an error and returns without touching the session
state; otherwise it invokes the publishing client with the session's
recipe, image and title. The session mapping itself is not written in
either branch. -/
def publishStep (s : SessionState) : SessionState × PublishOutcome :=
  if imageFalsy s.compressed_image_bytes then
    (s, PublishOutcome.errorNoImage)
  else
    (s, PublishOutcome.publishCalled s.final_recipe
      (s.compressed_image_bytes.getD []) s.technical_title)

/-- Session states reachable through `main`'s mutations: the initial
defaults, storing extracted text, a successful conversion (which writes the
recipe text and the technical title), a successful image generation or
regeneration, a manual edit of the recipe text, and the full reset offered
after publishing. A publish attempt itself never writes the state. -/
inductive ReachableSession : SessionState → Prop where
  | init : ReachableSession initialSessionState
  | extractText (s : SessionState) (t : List Char) :
      ReachableSession s → ReachableSession { s with extracted_text := t }
  | convertSuccess (s : SessionState) (r t : List Char) :
      ReachableSession s →
      ReachableSession { s with final_recipe := r, technical_title := t }
  | imageGenerated (s : SessionState) (b : List Nat) :
      ReachableSession s →
      ReachableSession { s with compressed_image_bytes := some b }
  | editRecipe (s : SessionState) (r : List Char) :
      ReachableSession s → ReachableSession { s with final_recipe := r }
  | reset (s : SessionState) :
      ReachableSession s → ReachableSession initialSessionState

/-! ## General list lemmas used by the proofs. -/

/-- `dropWhile` never lengthens a list. -/
theorem length_dropWhile_le {α : Type} (p : α → Bool) (l : List α) :
    (l.dropWhile p).length ≤ l.length := by
  induction l with
  | nil => simp
  | cons a l ih =>
    by_cases h : p a
    · rw [List.dropWhile_cons_of_pos h]
      exact Nat.le_succ_of_le ih
    · rw [List.dropWhile_cons_of_neg h]

/-- The head surviving a `dropWhile` fails the predicate. -/
theorem head?_dropWhile_eq_some {α : Type} (p : α → Bool) (l : List α) (c : α)
    (h : (l.dropWhile p).head? = some c) : p c = false := by
  have h2 := List.head?_dropWhile_not p l
  rw [h] at h2
  exact h2

/-- `dropWhile` keeps the last element of the list when it returns anything. -/
theorem getLast?_dropWhile_eq_some {α : Type} (p : α → Bool) (l : List α) (c : α)
    (h : (l.dropWhile p).getLast? = some c) : l.getLast? = some c := by
  obtain ⟨pre, hpre⟩ := List.dropWhile_suffix (l := l) p
  rw [← hpre, List.getLast?_append, h]
  rfl

/-- A list whose head fails the predicate is untouched by `dropWhile`. -/
theorem dropWhile_eq_self_of_head? {α : Type} (p : α → Bool) (l : List α)
    (h : ∀ c, l.head? = some c → p c = false) : l.dropWhile p = l := by
  cases l with
  | nil => rfl
  | cons a l =>
    have := h a rfl
    exact List.dropWhile_cons_of_neg (by simp [this])

/-! ## Properties of `pyStrip` and `strip_markdown_fences`. -/

/-- A stripped string does not start with whitespace. -/
theorem pyStrip_head?_not_space (s : List Char) (c : Char)
    (h : (pyStrip s).head? = some c) : isPySpace c = false := by
  unfold pyStrip at h
  rw [List.head?_reverse] at h
  have h2 := getLast?_dropWhile_eq_some _ _ _ h
  rw [List.getLast?_reverse] at h2
  exact head?_dropWhile_eq_some _ _ _ h2

/-- A stripped string does not end with whitespace. -/
theorem pyStrip_getLast?_not_space (s : List Char) (c : Char)
    (h : (pyStrip s).getLast? = some c) : isPySpace c = false := by
  unfold pyStrip at h
  rw [List.getLast?_reverse] at h
  exact head?_dropWhile_eq_some _ _ _ h

/-- A string with no whitespace at either end is untouched by `pyStrip`. -/
theorem pyStrip_eq_self (t : List Char)
    (h1 : ∀ c, t.head? = some c → isPySpace c = false)
    (h2 : ∀ c, t.getLast? = some c → isPySpace c = false) :
    pyStrip t = t := by
  unfold pyStrip
  rw [dropWhile_eq_self_of_head? _ _ h1]
  rw [dropWhile_eq_self_of_head? _ _
    (fun c hc => h2 c (by rw [← List.head?_reverse]; exact hc))]
  exact List.reverse_reverse t

/-- A string starting with neither fence marker is untouched by the first
substitution. -/
theorem stripLeadingFence_eq_self (s : List Char)
    (h1 : ("```markdown\n".data).isPrefixOf s = false)
    (h2 : ("```\n".data).isPrefixOf s = false) :
    stripLeadingFence s = s := by
  simp [stripLeadingFence, h1, h2]

/-- A string with neither trailing-fence shape is untouched by the second
substitution. -/
theorem stripTrailingFence_eq_self (s : List Char)
    (h1 : ("\n```\n".data).isSuffixOf s = false)
    (h2 : ("\n```".data).isSuffixOf s = false) :
    stripTrailingFence s = s := by
  simp [stripTrailingFence, h1, h2]

/-- Claim C3, counterexample: `strip_markdown_fences` is not idempotent. On
the input "```\n```\nx" one application removes only the first fence line
and yields "```\nx", and a second application removes the remaining fence
line and yields "x". -/
theorem strip_markdown_fences_not_idempotent :
    strip_markdown_fences (strip_markdown_fences ("```\n```\nx".data)) ≠
      strip_markdown_fences ("```\n```\nx".data) := by
  decide

/-- Claim C3 (amended): fence-stripping is idempotent on every input whose
once-stripped result does not itself start with a fence line
("```markdown\n" or "```\n") and does not end with "\n```"; in general a
second application can remove a further layer of fencing. -/
theorem strip_markdown_fences_idempotent_of_fence_free (s : List Char)
    (h1 : ("```markdown\n".data).isPrefixOf (strip_markdown_fences s) = false)
    (h2 : ("```\n".data).isPrefixOf (strip_markdown_fences s) = false)
    (h3 : ("\n```".data).isSuffixOf (strip_markdown_fences s) = false) :
    strip_markdown_fences (strip_markdown_fences s) = strip_markdown_fences s := by
  have hlast : ("\n```\n".data).isSuffixOf (strip_markdown_fences s) = false := by
    cases hsf : ("\n```\n".data).isSuffixOf (strip_markdown_fences s) with
    | false => rfl
    | true =>
      exfalso
      rw [List.isSuffixOf_iff_suffix] at hsf
      obtain ⟨pre, hpre⟩ := hsf
      have hnl : ("\n```\n".data).getLast? = some '\n' := by decide
      have hlast2 : (strip_markdown_fences s).getLast? = some '\n' := by
        rw [← hpre, List.getLast?_append, hnl]
        rfl
      have hns := pyStrip_getLast?_not_space
        (stripTrailingFence (stripLeadingFence s)) '\n' hlast2
      exact absurd hns (by decide)
  have hL : stripLeadingFence (strip_markdown_fences s) = strip_markdown_fences s :=
    stripLeadingFence_eq_self _ h1 h2
  have hT : stripTrailingFence (strip_markdown_fences s) = strip_markdown_fences s :=
    stripTrailingFence_eq_self _ hlast h3
  show pyStrip (stripTrailingFence (stripLeadingFence (strip_markdown_fences s)))
      = strip_markdown_fences s
  rw [hL, hT]
  exact pyStrip_eq_self _
    (fun c hc => pyStrip_head?_not_space (stripTrailingFence (stripLeadingFence s)) c hc)
    (fun c hc => pyStrip_getLast?_not_space (stripTrailingFence (stripLeadingFence s)) c hc)

/-- Witness for the amended C3 theorem at the concrete input
"```markdown\nhello\n```". -/
theorem strip_markdown_fences_idempotent_witness :
    strip_markdown_fences (strip_markdown_fences ("```markdown\nhello\n```".data)) =
      strip_markdown_fences ("```markdown\nhello\n```".data) :=
  strip_markdown_fences_idempotent_of_fence_free ("```markdown\nhello\n```".data)
    (by decide) (by decide) (by decide)

/-! ## Properties of the `<key>\s*=\s*"([^"]+)"` search. -/

/-- A list is a `isPrefixOf` of itself followed by anything. -/
theorem isPrefixOf_self_append (p t : List Char) : p.isPrefixOf (p ++ t) = true := by
  simp

/-- `isPrefixOf` fails when the heads differ. -/
theorem isPrefixOf_cons_of_ne (k c : Char) (ks cs : List Char) (h : c ≠ k) :
    (k :: ks).isPrefixOf (c :: cs) = false := by
  show (k == c && (ks.isPrefixOf cs)) = false
  have hk : (k == c) = false := by
    rw [beq_eq_false_iff_ne]
    exact fun e => h e.symm
  rw [hk, Bool.false_and]

/-- The pattern cannot match at the start of a string whose first character
differs from the key's first character. -/
theorem matchValueAt_none_of_head_ne (k0 c : Char) (ks cs : List Char) (h : c ≠ k0) :
    matchValueAt (k0 :: ks) (c :: cs) = none := by
  have hp : (k0 :: ks).isPrefixOf (c :: cs) = false := isPrefixOf_cons_of_ne _ _ _ _ h
  simp [matchValueAt, hp]

/-- A match implies the key occurs at the match position. -/
theorem matchValueAt_some_isPrefixOf (key l v : List Char)
    (h : matchValueAt key l = some v) : key.isPrefixOf l = true := by
  by_cases hp : key.isPrefixOf l
  · exact hp
  · unfold matchValueAt at h
    rw [if_neg hp] at h
    exact Option.noConfusion h

/-- If the key never occurs in `s`, the search finds nothing. -/
theorem findValue_eq_none_of_not_contains (key s : List Char)
    (h : containsSeq key s = false) : findValue key s = none := by
  induction s with
  | nil => rfl
  | cons c cs ih =>
    unfold containsSeq at h
    rw [Bool.or_eq_false_iff] at h
    have hm : matchValueAt key (c :: cs) = none := by
      cases hmv : matchValueAt key (c :: cs) with
      | none => rfl
      | some v => exact absurd (matchValueAt_some_isPrefixOf _ _ _ hmv) (by simp [h.1])
    unfold findValue
    rw [hm]
    exact ih h.2

/-- Scanning a region that avoids the key's first character finds nothing
there, so the search continues on the rest. -/
theorem findValue_append_of_notin (key : List Char) (a rest : List Char)
    (k0 : Char) (ks : List Char) (hk : key = k0 :: ks)
    (ha : ∀ c ∈ a, c ≠ k0) :
    findValue key (a ++ rest) = findValue key rest := by
  subst hk
  induction a with
  | nil => rfl
  | cons c a ih =>
    have hc : c ≠ k0 := ha c (List.mem_cons_self c a)
    have hm : matchValueAt (k0 :: ks) (c :: (a ++ rest)) = none :=
      matchValueAt_none_of_head_ne _ _ _ _ hc
    show (match matchValueAt (k0 :: ks) (c :: (a ++ rest)) with
      | some v => some v
      | none => findValue (k0 :: ks) (a ++ rest)) = findValue (k0 :: ks) rest
    rw [hm]
    exact ih (fun d hd => ha d (List.mem_cons_of_mem c hd))

/-- The pattern matches right at its key and captures the quoted value. -/
theorem matchValueAt_at_key (key ws1 ws2 v b : List Char)
    (hws1 : ∀ c ∈ ws1, isPySpace c = true)
    (hws2 : ∀ c ∈ ws2, isPySpace c = true)
    (hv : v ≠ [])
    (hq : ∀ c ∈ v, (c != quoteChar) = true) :
    matchValueAt key
      (key ++ (ws1 ++ ('=' :: (ws2 ++ (quoteChar :: (v ++ (quoteChar :: b))))))) = some v := by
  have hpre : key.isPrefixOf
      (key ++ (ws1 ++ ('=' :: (ws2 ++ (quoteChar :: (v ++ (quoteChar :: b))))))) = true :=
    isPrefixOf_self_append _ _
  have hvne : v.isEmpty = false := by
    cases v with
    | nil => exact absurd rfl hv
    | cons x xs => rfl
  unfold matchValueAt
  rw [hpre]
  simp only [if_true]
  rw [List.drop_left]
  rw [List.dropWhile_append_of_pos hws1,
    List.dropWhile_cons_of_neg (by decide : ¬ (isPySpace '=' = true))]
  simp only []
  rw [List.dropWhile_append_of_pos hws2,
    List.dropWhile_cons_of_neg (by decide : ¬ (isPySpace quoteChar = true))]
  simp only [if_pos rfl]
  rw [List.dropWhile_append_of_pos hq,
    List.dropWhile_cons_of_neg (p := fun d => d != quoteChar) (by decide),
    List.takeWhile_append_of_pos hq,
    List.takeWhile_cons_of_neg (p := fun d => d != quoteChar) (by decide),
    List.append_nil, hvne]
  simp

/-- When the pattern matches at the head of the string, the search returns
that match. -/
theorem findValue_cons_of_match (key : List Char) (c : Char) (cs v : List Char)
    (h : matchValueAt key (c :: cs) = some v) :
    findValue key (c :: cs) = some v := by
  unfold findValue
  rw [h]

/-- Claim C4, counterexample: `re.search` returns the leftmost match, so an
input that contains `technical_title = "chicken-soup"` after an earlier
occurrence of the key pattern yields the earlier value "a", not
"chicken-soup". -/
theorem extract_technical_title_leftmost_counterexample :
    containsSeq ("technical_title = \"chicken-soup\"".data)
      ("technical_title = \"a\"\ntechnical_title = \"chicken-soup\"".data) = true ∧
    extract_technical_title
      ("technical_title = \"a\"\ntechnical_title = \"chicken-soup\"".data) = "a".data ∧
    "a".data ≠ "chicken-soup".data := by
  exact ⟨by decide, by decide, by decide⟩

/-- Claim C4 (amended): the extractor never fails; when the key pattern does
not occur it returns the default "untitled-recipe"; and it returns the value
captured at the leftmost occurrence of the pattern — in particular the value
of a `technical_title = "<value>"` assignment preceded only by text avoiding
the letter 't' (which therefore contains no earlier occurrence). -/
theorem extract_technical_title_spec :
    (∀ s : List Char, containsSeq ("technical_title".data) s = false →
      extract_technical_title s = "untitled-recipe".data) ∧
    (∀ a ws1 ws2 v b : List Char,
      (∀ c ∈ a, c ≠ 't') →
      (∀ c ∈ ws1, isPySpace c = true) →
      (∀ c ∈ ws2, isPySpace c = true) →
      v ≠ [] →
      (∀ c ∈ v, (c != quoteChar) = true) →
      extract_technical_title
        (a ++ ("technical_title".data ++
          (ws1 ++ ('=' :: (ws2 ++ (quoteChar :: (v ++ (quoteChar :: b)))))))) = v) := by
  constructor
  · intro s hs
    unfold extract_technical_title
    rw [findValue_eq_none_of_not_contains _ _ hs]
    rfl
  · intro a ws1 ws2 v b ha hw1 hw2 hv hq
    unfold extract_technical_title
    rw [findValue_append_of_notin _ a _ 't' ("echnical_title".data) rfl ha]
    have hm := matchValueAt_at_key ("technical_title".data) ws1 ws2 v b hw1 hw2 hv hq
    have hfv : findValue ("technical_title".data)
        ("technical_title".data ++
          (ws1 ++ ('=' :: (ws2 ++ (quoteChar :: (v ++ (quoteChar :: b))))))) = some v :=
      findValue_cons_of_match _ 't'
        ("echnical_title".data ++
          (ws1 ++ ('=' :: (ws2 ++ (quoteChar :: (v ++ (quoteChar :: b))))))) v hm
    rw [hfv]
    rfl

/-- Witness for the amended C4 theorem at a concrete frontmatter fragment. -/
theorem extract_technical_title_spec_witness :
    extract_technical_title
      ("+++\n".data ++ ("technical_title".data ++
        (" ".data ++ ('=' :: (" ".data ++
          (quoteChar :: ("chicken-soup".data ++ (quoteChar :: "\n+++".data)))))))) =
      "chicken-soup".data :=
  extract_technical_title_spec.2 ("+++\n".data) (" ".data) (" ".data)
    ("chicken-soup".data) ("\n+++".data)
    (by decide) (by decide) (by decide) (by decide) (by decide)

/-- Claim C10: the pattern `technical_title\s*=\s*"([^"]+)"` requires at
least one character between the quotes, so a present-but-empty
`technical_title = ""` never matches: alone it yields the default, and in
any context whose preceding text avoids the letter 't' and whose following
text does not contain the key (so no other occurrence can match), the
extractor still returns "untitled-recipe". -/
theorem technical_title_empty_value_defaults :
    extract_technical_title ("technical_title = \"\"".data) = "untitled-recipe".data ∧
    (∀ a b : List Char, (∀ c ∈ a, c ≠ 't') →
      containsSeq ("technical_title".data) b = false →
      extract_technical_title (a ++ ("technical_title = \"\"".data ++ b)) =
        "untitled-recipe".data) := by
  constructor
  · decide
  · intro a b ha hb
    unfold extract_technical_title
    rw [findValue_append_of_notin _ a _ 't' ("echnical_title".data) rfl ha]
    have hlit : findValue ("technical_title".data) ("technical_title = \"\"".data ++ b) =
        findValue ("technical_title".data) b := rfl
    rw [hlit, findValue_eq_none_of_not_contains _ _ hb]
    rfl

/-- Witness for the C10 theorem at a concrete fragment. -/
theorem technical_title_empty_value_defaults_witness :
    extract_technical_title
      ("+++\n".data ++ ("technical_title = \"\"".data ++ "\n+++".data)) =
      "untitled-recipe".data :=
  technical_title_empty_value_defaults.2 ("+++\n".data) ("\n+++".data)
    (by decide) (by decide)

/-- Claim C5, counterexample: the pattern `title\s*=\s*"([^"]+)"` also
matches the tail of a `technical_title` assignment, and the search is
leftmost, so a recipe whose `technical_title` line precedes its
`title = "Roast Chicken"` line (and that has no description key) gets the
technical title's value "roast" as the image title. -/
theorem generate_recipe_image_title_counterexample :
    containsSeq ("title = \"Roast Chicken\"".data)
      ("technical_title = \"roast\"\ntitle = \"Roast Chicken\"".data) = true ∧
    containsSeq ("description".data)
      ("technical_title = \"roast\"\ntitle = \"Roast Chicken\"".data) = false ∧
    generate_recipe_image_title
      ("technical_title = \"roast\"\ntitle = \"Roast Chicken\"".data) = "roast".data ∧
    "roast".data ≠ "Roast Chicken".data := by
  exact ⟨by decide, by decide, by decide, by decide⟩

/-- Claim C5 (amended): with no occurrence of "title" at all the image title
falls back to "Food Recipe"; with no occurrence of "description" the image
description falls back to "Delicious food"; and the image title is the value
of the leftmost match of the title pattern — in particular
`title = "Roast Chicken"` preceded only by text avoiding the letter 't'
yields exactly "Roast Chicken". -/
theorem generate_recipe_image_extraction_spec :
    (∀ s : List Char, containsSeq ("title".data) s = false →
      generate_recipe_image_title s = "Food Recipe".data) ∧
    (∀ s : List Char, containsSeq ("description".data) s = false →
      generate_recipe_image_description s = "Delicious food".data) ∧
    (∀ a ws1 ws2 b : List Char,
      (∀ c ∈ a, c ≠ 't') →
      (∀ c ∈ ws1, isPySpace c = true) →
      (∀ c ∈ ws2, isPySpace c = true) →
      generate_recipe_image_title
        (a ++ ("title".data ++ (ws1 ++ ('=' ::
          (ws2 ++ (quoteChar :: ("Roast Chicken".data ++ (quoteChar :: b)))))))) =
        "Roast Chicken".data) := by
  refine ⟨?_, ?_, ?_⟩
  · intro s hs
    unfold generate_recipe_image_title
    rw [findValue_eq_none_of_not_contains _ _ hs]
    rfl
  · intro s hs
    unfold generate_recipe_image_description
    rw [findValue_eq_none_of_not_contains _ _ hs]
    rfl
  · intro a ws1 ws2 b ha hw1 hw2
    unfold generate_recipe_image_title
    rw [findValue_append_of_notin _ a _ 't' ("itle".data) rfl ha]
    have hm := matchValueAt_at_key ("title".data) ws1 ws2 ("Roast Chicken".data) b
      hw1 hw2 (by decide) (by decide)
    have hfv : findValue ("title".data)
        ("title".data ++ (ws1 ++ ('=' ::
          (ws2 ++ (quoteChar :: ("Roast Chicken".data ++ (quoteChar :: b))))))) =
        some ("Roast Chicken".data) :=
      findValue_cons_of_match _ 't'
        ("itle".data ++ (ws1 ++ ('=' ::
          (ws2 ++ (quoteChar :: ("Roast Chicken".data ++ (quoteChar :: b))))))) _ hm
    rw [hfv]
    rfl

/-- Witness for the amended C5 theorem at a concrete fragment. -/
theorem generate_recipe_image_extraction_witness :
    generate_recipe_image_title
      ("+++\n".data ++ ("title".data ++ (" ".data ++ ('=' ::
        (" ".data ++ (quoteChar :: ("Roast Chicken".data ++ (quoteChar :: "\n".data)))))))) =
      "Roast Chicken".data :=
  generate_recipe_image_extraction_spec.2.2 ("+++\n".data) (" ".data) (" ".data)
    ("\n".data) (by decide) (by decide) (by decide)

/-! ## Properties of the date substitution. -/

/-- The date pattern cannot match at a position whose first character is not
'd'. -/
theorem matchDateAt_none_of_head_ne (c : Char) (cs : List Char) (h : c ≠ 'd') :
    matchDateAt (c :: cs) = none := by
  have hp : ("date".data).isPrefixOf (c :: cs) = false :=
    isPrefixOf_cons_of_ne 'd' c ("ate".data) cs h
  simp [matchDateAt, hp]

/-- A date match consumes at least one character of the input. -/
theorem matchDateAt_rest_length (l g r : List Char)
    (h : matchDateAt l = some (g, r)) : r.length < l.length := by
  unfold matchDateAt at h
  split at h <;> try exact Option.noConfusion h
  split at h <;> try exact Option.noConfusion h
  rename_i r2 heq1
  split at h <;> try exact Option.noConfusion h
  rename_i c r4 heq2
  split at h <;> try exact Option.noConfusion h
  split at h <;> try exact Option.noConfusion h
  rename_i x r6 heq3
  injection h with hpair
  injection hpair with hg hr
  subst hr
  have e3 : (x :: r6).length ≤ r4.length := by
    rw [← heq3]; exact length_dropWhile_le _ _
  have e2 : (c :: r4).length ≤ r2.length := by
    rw [← heq2]; exact length_dropWhile_le _ _
  have e1 : ('=' :: r2).length ≤ (l.drop 4).length := by
    rw [← heq1]; exact length_dropWhile_le _ _
  have e0 : (l.drop 4).length ≤ l.length := by
    rw [List.length_drop]; omega
  simp only [List.length_cons] at e1 e2 e3
  omega

/-- The fuel passed to `substDateGo` is irrelevant once it covers the input
length. -/
theorem substDateGo_congr (today : List Char) :
    ∀ (f1 f2 : Nat) (l : List Char), l.length ≤ f1 → l.length ≤ f2 →
      substDateGo today f1 l = substDateGo today f2 l := by
  intro f1
  induction f1 with
  | zero =>
    intro f2 l h1 _
    have : l = [] := List.eq_nil_of_length_eq_zero (Nat.le_zero.mp h1)
    subst this
    cases f2 <;> rfl
  | succ f ih =>
    intro f2 l h1 h2
    cases l with
    | nil => cases f2 <;> rfl
    | cons c cs =>
      cases f2 with
      | zero => simp at h2
      | succ f2' =>
        simp only [substDateGo]
        cases hm : matchDateAt (c :: cs) with
        | none =>
          simp only [List.length_cons] at h1 h2
          rw [ih f2' cs (Nat.lt_succ_iff.mp (Nat.lt_of_lt_of_le (Nat.lt_succ_self _) h1))
            (Nat.lt_succ_iff.mp (Nat.lt_of_lt_of_le (Nat.lt_succ_self _) h2))]
        | some p =>
          obtain ⟨g, r⟩ := p
          have hlen := matchDateAt_rest_length (c :: cs) g r hm
          simp only [List.length_cons] at h1 h2 hlen
          show g ++ quoteChar :: (today ++ quoteChar :: substDateGo today f r) =
            g ++ quoteChar :: (today ++ quoteChar :: substDateGo today f2' r)
          rw [ih f2' r (by omega) (by omega)]

/-- When the date pattern matches nowhere, a substitution pass is the
identity, whatever the fuel. -/
theorem substDateGo_eq_self_of_no_match (today : List Char) :
    ∀ (fuel : Nat) (l : List Char), hasDateMatch l = false →
      substDateGo today fuel l = l := by
  intro fuel
  induction fuel with
  | zero => intro l _; cases l <;> rfl
  | succ f ih =>
    intro l hl
    cases l with
    | nil => rfl
    | cons c cs =>
      unfold hasDateMatch at hl
      rw [Bool.or_eq_false_iff] at hl
      have hm : matchDateAt (c :: cs) = none := by
        cases hmd : matchDateAt (c :: cs) with
        | none => rfl
        | some x =>
          have h1 := hl.1
          rw [hmd] at h1
          exact absurd h1 (by simp)
      simp only [substDateGo]
      rw [hm, ih cs hl.2]

/-- The date pattern matches right at its "date" literal, captures
`date\s*=\s*` as group 1, and leaves the text after the closing quote. -/
theorem matchDateAt_at_date (ws1 ws2 v b : List Char)
    (hw1 : ∀ c ∈ ws1, isPySpace c = true)
    (hw2 : ∀ c ∈ ws2, isPySpace c = true)
    (hq : ∀ c ∈ v, (c != quoteChar) = true) :
    matchDateAt
      ("date".data ++ (ws1 ++ ('=' :: (ws2 ++ (quoteChar :: (v ++ (quoteChar :: b))))))) =
      some ("date".data ++ (ws1 ++ ('=' :: ws2)), b) := by
  have hpre : ("date".data).isPrefixOf
      ("date".data ++ (ws1 ++ ('=' :: (ws2 ++ (quoteChar :: (v ++ (quoteChar :: b))))))) = true :=
    isPrefixOf_self_append _ _
  unfold matchDateAt
  rw [hpre]
  simp only [if_true]
  rw [List.drop_left' (by decide)]
  simp [List.dropWhile_append_of_pos hw1, List.takeWhile_append_of_pos hw1,
    List.dropWhile_append_of_pos hw2, List.takeWhile_append_of_pos hw2,
    List.dropWhile_append_of_pos hq, List.takeWhile_append_of_pos hq,
    List.dropWhile_cons_of_neg (by decide : ¬ (isPySpace '=' = true)),
    List.takeWhile_cons_of_neg (by decide : ¬ (isPySpace '=' = true)),
    List.dropWhile_cons_of_neg (by decide : ¬ (isPySpace quoteChar = true)),
    List.takeWhile_cons_of_neg (by decide : ¬ (isPySpace quoteChar = true)),
    List.dropWhile_cons_of_neg (p := fun d => d != quoteChar) (a := quoteChar) (by decide),
    List.takeWhile_cons_of_neg (p := fun d => d != quoteChar) (a := quoteChar) (by decide)]

/-- A substitution pass over a region avoiding 'd' followed by a date
assignment rewrites exactly the quoted value and continues after it. -/
theorem substDateGo_rewrite (today ws1 ws2 v b : List Char)
    (hw1 : ∀ c ∈ ws1, isPySpace c = true)
    (hw2 : ∀ c ∈ ws2, isPySpace c = true)
    (hq : ∀ c ∈ v, (c != quoteChar) = true) :
    ∀ (a : List Char) (fuel : Nat),
      (a ++ ("date".data ++ (ws1 ++ ('=' ::
        (ws2 ++ (quoteChar :: (v ++ (quoteChar :: b)))))))).length ≤ fuel →
      (∀ c ∈ a, c ≠ 'd') →
      substDateGo today fuel
        (a ++ ("date".data ++ (ws1 ++ ('=' ::
          (ws2 ++ (quoteChar :: (v ++ (quoteChar :: b)))))))) =
      a ++ (("date".data ++ (ws1 ++ ('=' :: ws2))) ++
        (quoteChar :: (today ++ (quoteChar :: substDateGo today b.length b)))) := by
  intro a
  induction a with
  | nil =>
    intro fuel hlen _
    cases fuel with
    | zero => simp at hlen
    | succ f =>
      have hm : matchDateAt
          ('d' :: ("ate".data ++ (ws1 ++ ('=' ::
            (ws2 ++ (quoteChar :: (v ++ (quoteChar :: b)))))))) =
          some ("date".data ++ (ws1 ++ ('=' :: ws2)), b) :=
        matchDateAt_at_date ws1 ws2 v b hw1 hw2 hq
      show substDateGo today (f + 1)
          ('d' :: ("ate".data ++ (ws1 ++ ('=' ::
            (ws2 ++ (quoteChar :: (v ++ (quoteChar :: b)))))))) = _
      simp only [substDateGo]
      rw [hm]
      show ("date".data ++ (ws1 ++ ('=' :: ws2))) ++
          (quoteChar :: (today ++ (quoteChar :: substDateGo today f b))) = _
      have hb : b.length ≤ f := by
        simp at hlen
        omega
      rw [substDateGo_congr today f b.length b hb (Nat.le_refl _)]
      simp
  | cons c a ih =>
    intro fuel hlen hc
    cases fuel with
    | zero => simp at hlen
    | succ f =>
      have hcd : c ≠ 'd' := hc c (List.mem_cons_self c a)
      have hm := matchDateAt_none_of_head_ne c
        (a ++ ("date".data ++ (ws1 ++ ('=' ::
          (ws2 ++ (quoteChar :: (v ++ (quoteChar :: b)))))))) hcd
      show substDateGo today (f + 1)
          (c :: (a ++ ("date".data ++ (ws1 ++ ('=' ::
            (ws2 ++ (quoteChar :: (v ++ (quoteChar :: b))))))))) = _
      simp only [substDateGo]
      rw [hm]
      show c :: substDateGo today f
          (a ++ ("date".data ++ (ws1 ++ ('=' ::
            (ws2 ++ (quoteChar :: (v ++ (quoteChar :: b)))))))) = _
      have hlen' : (a ++ ("date".data ++ (ws1 ++ ('=' ::
          (ws2 ++ (quoteChar :: (v ++ (quoteChar :: b)))))))).length ≤ f := by
        simp at hlen ⊢
        omega
      rw [ih f hlen' (fun d hd => hc d (List.mem_cons_of_mem c hd))]
      rfl

/-- Claim C2, counterexample: the pattern `date\s*=\s*` is unanchored, so a
text whose only assignment is `update = "x"` — containing no `date`
assignment, only a key that happens to end in "date" — is not returned
unchanged: its quoted value is rewritten to the current date. -/
theorem substDate_unanchored_counterexample :
    substDate ("2025-01-01".data) ("update = \"x\"".data) =
      "update = \"2025-01-01\"".data ∧
    substDate ("2025-01-01".data) ("update = \"x\"".data) ≠ "update = \"x\"".data := by
  exact ⟨by decide, by decide⟩

/-- Claim C2 (amended): the substitution rewrites the quoted value after
every occurrence of the unanchored pattern `date\s*=\s*"..."` — including
occurrences in which "date" is the tail of a longer key such as `update` —
replacing each quoted value with the current date while leaving every byte
outside the matched spans unchanged; a text in which the pattern matches
nowhere is returned unchanged. -/
theorem substDate_spec :
    (∀ today s : List Char, hasDateMatch s = false → substDate today s = s) ∧
    (∀ today a ws1 ws2 v b : List Char,
      (∀ c ∈ a, c ≠ 'd') →
      (∀ c ∈ ws1, isPySpace c = true) →
      (∀ c ∈ ws2, isPySpace c = true) →
      (∀ c ∈ v, (c != quoteChar) = true) →
      substDate today
        (a ++ ("date".data ++ (ws1 ++ ('=' ::
          (ws2 ++ (quoteChar :: (v ++ (quoteChar :: b)))))))) =
      a ++ (("date".data ++ (ws1 ++ ('=' :: ws2))) ++
        (quoteChar :: (today ++ (quoteChar :: substDate today b))))) := by
  constructor
  · intro today s hs
    exact substDateGo_eq_self_of_no_match today s.length s hs
  · intro today a ws1 ws2 v b ha hw1 hw2 hq
    exact substDateGo_rewrite today ws1 ws2 v b hw1 hw2 hq a _ (Nat.le_refl _) ha

/-- Witness for the amended C2 theorem: a pattern-free text is unchanged,
and a concrete date assignment has exactly its quoted value replaced. -/
theorem substDate_spec_witness :
    substDate ("2025-01-01".data) ("no assignments here".data) =
      "no assignments here".data ∧
    substDate ("2025-01-01".data)
      ("+++\n".data ++ ("date".data ++ (" ".data ++ ('=' :: (" ".data ++
        (quoteChar :: ("old".data ++ (quoteChar :: "\n+++".data)))))))) =
      "+++\n".data ++ (("date".data ++ (" ".data ++ ('=' :: " ".data))) ++
        (quoteChar :: ("2025-01-01".data ++
          (quoteChar :: substDate ("2025-01-01".data) ("\n+++".data))))) := by
  exact ⟨substDate_spec.1 ("2025-01-01".data) ("no assignments here".data) (by decide),
    substDate_spec.2 ("2025-01-01".data) ("+++\n".data) (" ".data) (" ".data)
      ("old".data) ("\n+++".data) (by decide) (by decide) (by decide) (by decide)⟩

/-- Claim C1: for every recipe text, image byte string and technical title,
with the recipes root at its default "content/post", the publish operation
issues exactly one branch-creation call — for `refs/heads/recipe/<t>` from
the default branch head commit — exactly two file commits on that branch,
the UTF-8 recipe markdown at content/post/<t>/index.md and the image bytes
at content/post/<t>/image.jpg, exactly one pull-request creation from
recipe/<t> into master, and returns the url produced by the pull-request
creation call. -/
theorem create_github_pr_spec (repo : MockRepo) (final_recipe : String)
    (image : List Nat) (t : String) :
    (create_github_pr defaultRecipesFolder repo final_recipe image t).1.filter
        isCreateRefCall =
      [GitHubCall.createRef ("refs/heads/recipe/" ++ t) repo.headSha] ∧
    (create_github_pr defaultRecipesFolder repo final_recipe image t).1.filter
        isCreateFileCall =
      [GitHubCall.createFile ("content/post/" ++ t ++ "/index.md")
          ("Add new recipe " ++ t) (utf8Bytes final_recipe) ("recipe/" ++ t),
        GitHubCall.createFile ("content/post/" ++ t ++ "/image.jpg")
          ("Add image for recipe " ++ t) image ("recipe/" ++ t)] ∧
    (create_github_pr defaultRecipesFolder repo final_recipe image t).1.filter
        isCreatePullCall =
      [GitHubCall.createPull ("New Recipe: " ++ t)
        ("Auto-generated recipe PR for " ++ t ++ ". Please review.")
        ("recipe/" ++ t) "master"] ∧
    (create_github_pr defaultRecipesFolder repo final_recipe image t).2 = repo.prHtmlUrl := by
  refine ⟨rfl, rfl, rfl, rfl⟩

/-- Claim C6: with both GITHUB_ACCESS_TOKEN and GITHUB_REPO_NAME absent, the
hosting-client constructor fails with the message naming both variables; no
repository request value is produced, i.e. the error is returned before the
network call would be built. -/
theorem get_github_repo_missing_both (env : String → Option String)
    (h1 : env "GITHUB_ACCESS_TOKEN" = none)
    (h2 : env "GITHUB_REPO_NAME" = none) :
    get_github_repo env = Except.error
      ("Missing required environment variables for GitHub integration: "
        ++ "GITHUB_ACCESS_TOKEN, GITHUB_REPO_NAME") := by
  unfold get_github_repo
  rw [h1, h2]
  rfl

/-- Witness for the C6 theorem on the empty environment. -/
theorem get_github_repo_missing_both_witness :
    get_github_repo (fun _ => none) = Except.error
      ("Missing required environment variables for GitHub integration: "
        ++ "GITHUB_ACCESS_TOKEN, GITHUB_REPO_NAME") :=
  get_github_repo_missing_both (fun _ => none) rfl rfl

/-- Claim C8, counterexample: a fetch ending with HTTP status 304 — a
non-2xx status — does not fail: `raise_for_status` raises only for
[400, 600), so link extraction proceeds and returns the (fence-stripped,
trimmed) model output. -/
theorem extract_text_from_link_304_counterexample :
    extract_text_from_link ⟨304, "h".data⟩ (fun body _ => body) [] =
      Except.ok ("h".data) := by
  rfl

/-- Claim C8 (amended): link extraction fails exactly on the statuses
`raise_for_status` raises for — the client/server error range [400, 600) —
and on every other final status (2xx, but also e.g. 304) it sends the entire
fetched body together with the instruction text to the model and returns the
model output fence-stripped and trimmed. -/
theorem extract_text_from_link_spec (r : HttpResponse)
    (model : List Char → List Char → List Char) (extra : List Char) :
    (400 ≤ r.status ∧ r.status < 600 →
      extract_text_from_link r model extra = Except.error r.status) ∧
    (¬ (400 ≤ r.status ∧ r.status < 600) →
      extract_text_from_link r model extra =
        Except.ok (pyStrip (strip_markdown_fences
          (model r.body (linkExtractionInstructions.data ++ extra))))) := by
  constructor
  · intro h
    unfold extract_text_from_link raise_for_status
    rw [if_pos h]
  · intro h
    unfold extract_text_from_link raise_for_status
    rw [if_neg h]

/-- Witness for the amended C8 theorem at statuses 404 and 200. -/
theorem extract_text_from_link_spec_witness :
    extract_text_from_link ⟨404, "h".data⟩ (fun body _ => body) [] =
      Except.error 404 ∧
    extract_text_from_link ⟨200, "h".data⟩ (fun body _ => body) [] =
      Except.ok (pyStrip (strip_markdown_fences
        ((fun body _ => body) ("h".data)
          (linkExtractionInstructions.data ++ ([] : List Char))))) :=
  ⟨(extract_text_from_link_spec ⟨404, "h".data⟩ (fun body _ => body) []).1 (by decide),
    (extract_text_from_link_spec ⟨200, "h".data⟩ (fun body _ => body) []).2 (by decide)⟩

/-- Claim C9: from every reachable session state whose image slot is falsy
(absent or an empty byte string), requesting publish leaves the session
state unchanged and only surfaces an error; conversely, whenever the
publishing client is invoked, the session holds a non-empty image and the
state is left unchanged. -/
theorem publishStep_requires_image :
    (∀ s : SessionState, ReachableSession s →
      imageFalsy s.compressed_image_bytes = true →
      publishStep s = (s, PublishOutcome.errorNoImage)) ∧
    (∀ (s s' : SessionState) (r : List Char) (img : List Nat) (t : List Char),
      publishStep s = (s', PublishOutcome.publishCalled r img t) →
      s' = s ∧ s.compressed_image_bytes = some img ∧ img ≠ []) := by
  constructor
  · intro s _ h
    unfold publishStep
    rw [if_pos h]
  · intro s s' r img t h
    unfold publishStep at h
    by_cases hf : imageFalsy s.compressed_image_bytes = true
    · rw [if_pos hf] at h
      simp at h
    · rw [if_neg hf] at h
      injection h with hs hp
      injection hp with h1 h2 h3
      cases hcb : s.compressed_image_bytes with
      | none =>
        exfalso
        apply hf
        rw [hcb]
        rfl
      | some bb =>
        have hbb : bb.isEmpty = false := by
          cases hbe : bb.isEmpty with
          | false => rfl
          | true =>
            exfalso
            apply hf
            rw [hcb]
            show bb.isEmpty = true
            exact hbe
        have himg : bb = img := by
          rw [hcb] at h2
          exact h2
        refine ⟨hs.symm, ?_, ?_⟩
        · rw [himg]
        · rw [← himg]
          intro hnil
          rw [hnil] at hbb
          exact Bool.noConfusion hbb

/-- Witness for the C9 theorem at the initial session state, whose image
slot is empty. -/
theorem publishStep_requires_image_witness :
    publishStep initialSessionState = (initialSessionState, PublishOutcome.errorNoImage) :=
  publishStep_requires_image.1 initialSessionState ReachableSession.init rfl


/-! ## Properties of the restricted `str.format`. -/

/-- `String.append` concatenates the underlying character lists. -/
theorem stringData_append (a b : String) : (a ++ b).data = a.data ++ b.data := rfl

/-- Formatting steps over an ordinary character unchanged. -/
theorem pyFormatGo_cons_literal (subs : List (List Char × List Char)) (f : Nat)
    (c : Char) (rest : List Char) (h1 : c ≠ '{') (h2 : c ≠ '}') :
    pyFormatGo subs (f + 1) (c :: rest) =
      (pyFormatGo subs f rest).map (fun t => c :: t) := by
  simp only [pyFormatGo, if_neg h1, if_neg h2]

/-- The fuel passed to `pyFormatGo` is irrelevant once it covers the input
length. -/
theorem pyFormatGo_congr (subs : List (List Char × List Char)) :
    ∀ (f1 f2 : Nat) (l : List Char), l.length ≤ f1 → l.length ≤ f2 →
      pyFormatGo subs f1 l = pyFormatGo subs f2 l := by
  intro f1
  induction f1 with
  | zero =>
    intro f2 l h1 _
    have : l = [] := List.eq_nil_of_length_eq_zero (Nat.le_zero.mp h1)
    subst this
    cases f2 <;> rfl
  | succ f ih =>
    intro f2 l h1 h2
    cases l with
    | nil => cases f2 <;> rfl
    | cons c cs =>
      cases f2 with
      | zero => simp at h2
      | succ f2' =>
        simp only [List.length_cons] at h1 h2
        have htail : cs.tail.length ≤ cs.length := by
          cases cs <;> simp
        simp only [pyFormatGo]
        split
        · split
          · rw [ih f2' cs.tail (by omega) (by omega)]
          · split
            · rename_i x r2 hdw
              have hr2 : (x :: r2).length ≤ cs.length := by
                rw [← hdw]; exact length_dropWhile_le _ _
              simp only [List.length_cons] at hr2
              split
              · rw [ih f2' r2 (by omega) (by omega)]
              · rfl
            · rfl
        · split
          · split
            · rw [ih f2' cs.tail (by omega) (by omega)]
            · rfl
          · rw [ih f2' cs (by omega) (by omega)]

/-- Formatting walks over literal (brace-free) text unchanged, substituting
only in the remainder. -/
theorem pyFormat_literal_append (subs : List (List Char × List Char))
    (lit : List Char) (hlit : ∀ c ∈ lit, c ≠ '{' ∧ c ≠ '}') (rest : List Char) :
    pyFormat subs (lit ++ rest) = (pyFormat subs rest).map (fun t => lit ++ t) := by
  induction lit with
  | nil =>
    cases hx : pyFormat subs rest with
    | none => show pyFormat subs rest = _; rw [hx]; rfl
    | some t => show pyFormat subs rest = _; rw [hx]; rfl
  | cons c lit' ih =>
    have hc := hlit c (List.mem_cons_self c lit')
    have hstep := pyFormatGo_cons_literal subs ((lit' ++ rest).length)
      c (lit' ++ rest) hc.1 hc.2
    show pyFormatGo subs ((lit' ++ rest).length + 1) (c :: (lit' ++ rest)) = _
    rw [hstep]
    have ih' := ih (fun d hd => hlit d (List.mem_cons_of_mem c hd))
    rw [show pyFormatGo subs (lit' ++ rest).length (lit' ++ rest) =
      pyFormat subs (lit' ++ rest) from rfl, ih']
    cases pyFormat subs rest <;> rfl

/-- One formatting step on an opening brace whose field is well formed:
substitute the value found by the lookup. -/
theorem pyFormatGo_open_brace (subs : List (List Char × List Char)) (f : Nat)
    (rest0 r2 : List Char) (kv : List Char × List Char)
    (hne : ¬ (rest0.head? = some '{'))
    (hdw : rest0.dropWhile (fun d => d != '}') = '}' :: r2)
    (hfind : subs.find? (fun p => p.1 == rest0.takeWhile (fun d => d != '}')) = some kv) :
    pyFormatGo subs (f + 1) ('{' :: rest0) =
      (pyFormatGo subs f r2).map (fun t => kv.2 ++ t) := by
  simp only [pyFormatGo, if_pos rfl, if_neg hne, hdw, hfind]
  simp

/-- Formatting a placeholder `{name}` substitutes the bound value found by
the lookup. -/
theorem pyFormat_placeholder (subs : List (List Char × List Char)) (n0 : Char)
    (name' rest : List Char) (kv : List Char × List Char)
    (hn0 : n0 ≠ '{')
    (hname : ∀ c ∈ n0 :: name', (c != '}') = true)
    (hfind : subs.find? (fun p => p.1 == (n0 :: name')) = some kv) :
    pyFormat subs ('{' :: ((n0 :: name') ++ ('}' :: rest))) =
      (pyFormat subs rest).map (fun t => kv.2 ++ t) := by
  show pyFormatGo subs (((n0 :: name') ++ ('}' :: rest)).length + 1)
      ('{' :: ((n0 :: name') ++ ('}' :: rest))) = _
  rw [pyFormatGo_open_brace subs (((n0 :: name') ++ ('}' :: rest)).length)
    ((n0 :: name') ++ ('}' :: rest)) rest kv
    (by simp [hn0])
    (by
      simp only [List.cons_append]
      rw [List.dropWhile_cons_of_pos (p := fun d => d != '}')
          (hname n0 (List.mem_cons_self n0 name')),
        List.dropWhile_append_of_pos (fun d hd => hname d (List.mem_cons_of_mem n0 hd)),
        List.dropWhile_cons_of_neg (p := fun d => d != '}') (by decide)])
    (by
      simp only [List.cons_append]
      rw [List.takeWhile_cons_of_pos (p := fun d => d != '}')
          (hname n0 (List.mem_cons_self n0 name')),
        List.takeWhile_append_of_pos (fun d hd => hname d (List.mem_cons_of_mem n0 hd)),
        List.takeWhile_cons_of_neg (p := fun d => d != '}') (by decide),
        List.append_nil]
      exact hfind)]
  have hlen : rest.length ≤ ((n0 :: name') ++ ('}' :: rest)).length := by
    simp
    omega
  rw [pyFormatGo_congr subs (((n0 :: name') ++ ('}' :: rest)).length) rest.length rest
    hlen (Nat.le_refl _)]
  rfl

set_option maxRecDepth 8000 in
/-- The template's character list, decomposed at its two replacement
fields. -/
theorem recipe_template_decomposition :
    RECIPE_PROMPT_TEMPLATE.data =
      recipePromptChunk1.data ++ (recipePromptChunk2.data ++ (recipePromptChunk3.data ++
        (recipePromptChunk4.data ++ (recipePromptChunk5.data ++ (recipePromptChunk6.data ++
          ('{' :: ("user_instructions".data ++ ('}' :: ("\n\nRecipe Text:\n".data ++
            ('{' :: ("recipe_text".data ++ ('}' :: "\n".data)))))))))))) := rfl

set_option maxRecDepth 8000 in
/-- No chunk of the literal template text contains a brace. -/
theorem recipePromptChunk1_brace_free :
    ∀ c ∈ recipePromptChunk1.data, c ≠ '{' ∧ c ≠ '}' := by decide

set_option maxRecDepth 8000 in
/-- No chunk of the literal template text contains a brace. -/
theorem recipePromptChunk2_brace_free :
    ∀ c ∈ recipePromptChunk2.data, c ≠ '{' ∧ c ≠ '}' := by decide

set_option maxRecDepth 8000 in
/-- No chunk of the literal template text contains a brace. -/
theorem recipePromptChunk3_brace_free :
    ∀ c ∈ recipePromptChunk3.data, c ≠ '{' ∧ c ≠ '}' := by decide

set_option maxRecDepth 8000 in
/-- No chunk of the literal template text contains a brace. -/
theorem recipePromptChunk4_brace_free :
    ∀ c ∈ recipePromptChunk4.data, c ≠ '{' ∧ c ≠ '}' := by decide

set_option maxRecDepth 8000 in
/-- No chunk of the literal template text contains a brace. -/
theorem recipePromptChunk5_brace_free :
    ∀ c ∈ recipePromptChunk5.data, c ≠ '{' ∧ c ≠ '}' := by decide

set_option maxRecDepth 8000 in
/-- No chunk of the literal template text contains a brace. -/
theorem recipePromptChunk6_brace_free :
    ∀ c ∈ recipePromptChunk6.data, c ≠ '{' ∧ c ≠ '}' := by decide

set_option maxRecDepth 8000 in
/-- Claim C7: the prompt builder is a pure, deterministic function — the
prompt is exactly the fixed template text with the two inputs substituted at
their placeholders (braces inside the inputs are not re-interpreted), a
missing (None) user_instructions behaves exactly like the empty string, and
equal inputs give the identical prompt string. -/
theorem convert_recipe_prompt_spec :
    (∀ recipe_text ui : List Char,
      convert_recipe_prompt recipe_text (some ui) =
        some (recipePromptPre.data ++ (ui ++
          ("\n\nRecipe Text:\n".data ++ (recipe_text ++ "\n".data))))) ∧
    (∀ recipe_text : List Char,
      convert_recipe_prompt recipe_text none =
        convert_recipe_prompt recipe_text (some [])) ∧
    (∀ (rt1 rt2 : List Char) (ui1 ui2 : Option (List Char)),
      rt1 = rt2 → ui1 = ui2 →
      convert_recipe_prompt rt1 ui1 = convert_recipe_prompt rt2 ui2) := by
  refine ⟨?_, ?_, ?_⟩
  · intro rt ui
    show pyFormat [("recipe_text".data, rt), ("user_instructions".data, ui)]
        RECIPE_PROMPT_TEMPLATE.data = _
    rw [recipe_template_decomposition]
    rw [pyFormat_literal_append _ recipePromptChunk1.data recipePromptChunk1_brace_free,
      pyFormat_literal_append _ recipePromptChunk2.data recipePromptChunk2_brace_free,
      pyFormat_literal_append _ recipePromptChunk3.data recipePromptChunk3_brace_free,
      pyFormat_literal_append _ recipePromptChunk4.data recipePromptChunk4_brace_free,
      pyFormat_literal_append _ recipePromptChunk5.data recipePromptChunk5_brace_free,
      pyFormat_literal_append _ recipePromptChunk6.data recipePromptChunk6_brace_free]
    have hph2 : pyFormat [("recipe_text".data, rt), ("user_instructions".data, ui)]
        ('{' :: ("user_instructions".data ++ ('}' :: ("\n\nRecipe Text:\n".data ++
          ('{' :: ("recipe_text".data ++ ('}' :: "\n".data))))))) =
        (pyFormat [("recipe_text".data, rt), ("user_instructions".data, ui)]
          ("\n\nRecipe Text:\n".data ++ ('{' :: ("recipe_text".data ++ ('}' :: "\n".data))))).map
          (fun t => ui ++ t) :=
      pyFormat_placeholder _ 'u' ("ser_instructions".data) _
        (("user_instructions".data, ui)) (by decide) (by decide) (by rfl)
    rw [hph2]
    rw [pyFormat_literal_append _ ("\n\nRecipe Text:\n".data) (by decide)]
    have hph1 : pyFormat [("recipe_text".data, rt), ("user_instructions".data, ui)]
        ('{' :: ("recipe_text".data ++ ('}' :: "\n".data))) =
        (pyFormat [("recipe_text".data, rt), ("user_instructions".data, ui)]
          ("\n".data)).map (fun t => rt ++ t) :=
      pyFormat_placeholder _ 'r' ("ecipe_text".data) ("\n".data)
        (("recipe_text".data, rt)) (by decide) (by decide) (by rfl)
    rw [hph1]
    have hnl : pyFormat [("recipe_text".data, rt), ("user_instructions".data, ui)]
        ("\n".data) = some ("\n".data) := rfl
    rw [hnl]
    have hPre : recipePromptPre.data =
        recipePromptChunk1.data ++ (recipePromptChunk2.data ++ (recipePromptChunk3.data ++
          (recipePromptChunk4.data ++ (recipePromptChunk5.data ++ recipePromptChunk6.data)))) :=
      rfl
    rw [hPre]
    simp only [Option.map_some', List.append_assoc]
  · intro rt
    rfl
  · intro rt1 rt2 ui1 ui2 h1 h2
    rw [h1, h2]

/-- Witness for the C7 theorem at concrete inputs. -/
theorem convert_recipe_prompt_spec_witness :
    convert_recipe_prompt ("RT".data) (some ("UI".data)) =
      convert_recipe_prompt ("RT".data) (some ("UI".data)) :=
  convert_recipe_prompt_spec.2.2 ("RT".data) ("RT".data)
    (some ("UI".data)) (some ("UI".data)) rfl rfl
